import Mathlib

/-!
Verification development for the automated-downtimes check plugin
(`check_auto_downtimes.py`, `auto_downtimes_cache.py`,
`auto_downtimes_common.py`).

The Python sources are embedded shallowly: pure fragments become Lean
functions, the stateful reconciliation loop becomes a pure function from
its inputs (target list, current downtimes, persisted flags, clock) to
the list of MonitoringAPI mutation calls it issues, timestamps are
integers counting seconds, and Python `set` values are modelled as
insertion-ordered duplicate-free lists (claims proved here do not depend
on iteration order of hash sets).  Fallible code returns `Option` or
`Except`; unbounded recursion in the source is modelled with an explicit
fuel parameter, `none` meaning the fuel bound was hit.
-/

/-! ## Basic utilities -/

/-- Helper for `dedupFirst`: keep the first occurrence of every element
not already in `seen`. -/
def dedupFirstAux {α : Type} [DecidableEq α] (seen : List α) : List α → List α
  | [] => []
  | a :: as => if a ∈ seen then dedupFirstAux seen as
    else a :: dedupFirstAux (a :: seen) as

/-- Insertion-ordered deduplication; models Python `set` contents (the
claims below never depend on hash-iteration order). -/
def dedupFirst {α : Type} [DecidableEq α] (l : List α) : List α :=
  dedupFirstAux [] l

/-- `needle` occurs as a contiguous run inside `hay`; models Python
`hay.find(needle) >= 0`. -/
def hasSubList {α : Type} [DecidableEq α] (needle : List α) : List α → Bool
  | [] => needle.isEmpty
  | a :: rest => needle.isPrefixOf (a :: rest) || hasSubList needle rest

/-- Python `s.find(sub) >= 0` (substring containment). -/
def hasSubstr (s sub : String) : Bool :=
  hasSubList sub.data s.data

/-- `s.lower()` (Python) / `String.toLower` (Lean core defines it as the
same character map; restated over the character list so the kernel can
evaluate it). -/
def strLower (s : String) : String :=
  ⟨s.data.map Char.toLower⟩

/-! ## Constants from `auto_downtimes_common.py` -/

def MAX_QUERY_BATCH_SIZE : Nat := 50

def MAX_CACHE_AGE_MINUTES : Int := 60

def NAGRES_OK : Nat := 0

def NAGRES_CRIT : Nat := 2

def NAGRES_CRASH : Nat := 3

/-- `chunks(lst, n)` from `auto_downtimes_common.py`:
`[lst[i*n:(i+1)*n] for i in range((len(lst)+n-1)//n)]`. -/
def chunks {α : Type} (lst : List α) (n : Nat) : List (List α) :=
  (List.range ((lst.length + n - 1) / n)).map (fun i => (lst.drop (i * n)).take n)

/-- Whether a string parses as a Python `int` literal (optional sign, at
least one decimal digit); used by `try_strip_fqdn`. -/
def isIntStr (s : String) : Bool :=
  let body := if s.startsWith "-" || s.startsWith "+" then (s.drop 1).data else s.data
  !body.isEmpty && body.all Char.isDigit

/-- `try_strip_fqdn` from `auto_downtimes_common.py`: split on dots; a
4-part all-integer name looks like an IP and is kept whole, otherwise the
first label is returned. -/
def try_strip_fqdn (fqdn : String) : String :=
  let parts := fqdn.splitOn "."
  if parts.length = 4 && parts.all isIntStr then fqdn
  else parts.headD ""

/-! ## Regular-expression model

The source builds Python `re` patterns by string concatenation from a
user-supplied fragment, `".*"`, and the constant
`WORD_BOUND = "(\\b|_| |$)"`, and then calls `re.match` (anchored at the
start of the candidate).  We model patterns as an abstract syntax tree
`Reg` and give them executable semantics with a backtracking matcher over
positions; fuel bounds the recursion depth (every claim below is
insensitive to the exact fuel once it is large enough, and concrete
evaluations use a generous bound). -/

inductive Reg : Type
  | eps : Reg
  | lit : Char → Reg
  | anyc : Reg
  | cat : Reg → Reg → Reg
  | alt : Reg → Reg → Reg
  | star : Reg → Reg
  | wordB : Reg
  | bos : Reg
  | eos : Reg
deriving Repr, DecidableEq

/-- Characters Python `\w` / `\b` treat as word constituents (ASCII model). -/
def isWordChar (c : Char) : Bool :=
  c.isAlphanum || c = '_'

def wordish (w : List Char) (i : Nat) : Bool :=
  match w.get? i with
  | some c => isWordChar c
  | none => false

/-- Python `\b`: a word/non-word boundary, including the string edges. -/
def wordBoundaryAt (w : List Char) (i : Nat) : Bool :=
  if i = 0 then wordish w 0 else wordish w (i - 1) != wordish w i

/-- Character comparison under the optional `re.IGNORECASE` flag. -/
def charEq (ci : Bool) (a b : Char) : Bool :=
  if ci then a.toLower == b.toLower else a == b

/-- All positions at which a parse of `r` starting at position `i` of `w`
can end.  `re.match` succeeds iff this is nonempty at `i = 0`. -/
def matchEnds (w : List Char) (ci : Bool) : Nat → Reg → Nat → List Nat
  | 0, _, _ => []
  | fuel + 1, r, i =>
    match r with
    | .eps => [i]
    | .lit c =>
      match w.get? i with
      | some a => if charEq ci a c then [i + 1] else []
      | none => []
    | .anyc => if i < w.length then [i + 1] else []
    | .cat r1 r2 =>
      (matchEnds w ci fuel r1 i).flatMap (fun j => matchEnds w ci fuel r2 j)
    | .alt r1 r2 => matchEnds w ci fuel r1 i ++ matchEnds w ci fuel r2 i
    | .star r1 =>
      i :: ((matchEnds w ci fuel r1 i).filter (fun j => i < j)).flatMap
        (fun j => matchEnds w ci fuel (.star r1) j)
    | .wordB => if wordBoundaryAt w i then [i] else []
    | .bos => if i == 0 then [i] else []
    | .eos => if i == w.length then [i] else []

/-- Structural size of a pattern, used to pick a sufficient fuel bound. -/
def regSize : Reg → Nat
  | .cat r1 r2 => regSize r1 + regSize r2 + 1
  | .alt r1 r2 => regSize r1 + regSize r2 + 1
  | .star r1 => regSize r1 + 1
  | _ => 1

/-- `re.match(pattern, s)` is truthy: some parse from position 0 exists. -/
def rmatchB (ci : Bool) (r : Reg) (s : String) : Bool :=
  !(matchEnds s.data ci ((regSize r + 1) * (s.data.length + 2)) r 0).isEmpty

/-- The constant `WORD_BOUND = "(\\b|_| |$)"` as a pattern tree. -/
def WORD_BOUND : Reg :=
  .alt .wordB (.alt (.lit '_') (.alt (.lit ' ') .eos))

/-- A user-supplied pattern fragment: whether its text starts with the
anchor character `^`, and the tree of the rest. -/
structure Frag : Type where
  caret : Bool
  body : Reg
deriving Repr, DecidableEq

/-- The fragment as a full pattern (a leading `^` becomes a
beginning-of-string assertion). -/
def Frag.toReg (f : Frag) : Reg :=
  if f.caret then .cat .bos f.body else f.body

/-- `if not kw.startswith("^"): kw = ".*" + kw` — the "simulate
LQ-behaviour" prefixing applied throughout `auto_downtimes_cache.py`. -/
def lqCompat (f : Frag) : Frag :=
  if f.caret then f else ⟨false, .cat (.star .anyc) f.body⟩

/-- `WORD_BOUND + kw + WORD_BOUND` around an (already `lqCompat`-prefixed)
fragment. -/
def boundaryWrap (f : Frag) : Reg :=
  .cat WORD_BOUND (.cat f.toReg WORD_BOUND)

/-- Literal characters as a pattern (a metacharacter-free fragment). -/
def litsReg : List Char → Reg
  | [] => .eps
  | c :: cs => .cat (.lit c) (litsReg cs)

/-- A host or service name used as a pattern text (the sources pass plain
names to the regex engine; this embedding treats them as literal
fragments, which is exact for metacharacter-free names).  The
`startswith("^")` test of the source is taken on the character list. -/
def Frag.ofString (s : String) : Frag :=
  match s.data with
  | '^' :: rest => ⟨true, litsReg rest⟩
  | _ => ⟨false, litsReg s.data⟩

/-! ## Data model (`auto_downtimes_common.py` dataclasses) -/

structure HostId : Type where
  name : String
  aliasName : String
  site : String
deriving Repr, DecidableEq

structure HostInfo : Type where
  id : HostId
  parents : List String
  svcs : List String
  childs : List String
deriving Repr, DecidableEq

structure SvcInfo : Type where
  name : String
  host : HostId
deriving Repr, DecidableEq

/-- The directory snapshot (`CacheData`).  The Python dataclass also
stores four derived dictionaries (`hosts_by_id`, `hosts_by_alias` and
their case-folded variants) built in `InfoCache._update`; here those
indexes are derived by the lookup functions below, which reproduce the
dict semantics (a later host with the same key wins). -/
structure CacheData : Type where
  hosts : List HostInfo
  svcs : List SvcInfo
deriving Repr, DecidableEq

/-- `hosts_by_id.get(n)`: last host whose name is `n`. -/
def hostsByIdLookup (c : CacheData) (n : String) : Option HostInfo :=
  (c.hosts.filter (fun h => h.id.name == n)).getLast?

/-- `hosts_by_alias.get(n)`: last host whose alias is `n`. -/
def hostsByAliasLookup (c : CacheData) (n : String) : Option HostInfo :=
  (c.hosts.filter (fun h => h.id.aliasName == n)).getLast?

/-- `hosts_by_id_insens.get(k)`: the set of original names of hosts whose
lower-cased name equals the (not lower-cased) key `k`. -/
def hostsByIdInsens (c : CacheData) (k : String) : List String :=
  dedupFirst ((c.hosts.filter (fun h => (strLower h.id.name) == k)).map (fun h => h.id.name))

/-- `hosts_by_alias_insens.get(k)`. -/
def hostsByAliasInsens (c : CacheData) (k : String) : List String :=
  dedupFirst ((c.hosts.filter (fun h => (strLower h.id.aliasName) == k)).map (fun h => h.id.name))

/-- `InfoCache._find_hosts`. -/
def cacheFindHosts (c : CacheData) (host_name : String) (ci : Bool) : List HostInfo :=
  if ci then
    ((hostsByIdInsens c host_name) ++ (hostsByAliasInsens c host_name)).filterMap
      (fun h => hostsByIdLookup c h)
  else
    (hostsByIdLookup c host_name).toList ++ (hostsByAliasLookup c host_name).toList

/-- `InfoCache.find_hosts` (regex host search used for manual targets). -/
def find_hosts (c : CacheData) (name_frag : Frag) (ci : Bool) : List String :=
  let nf := lqCompat name_frag
  dedupFirst (c.hosts.filterMap
    (fun h => if rmatchB ci nf.toReg h.id.name then some h.id.name else none))

/-- `InfoCache.find_childs_of_host`, with fuel modelling the Python call
stack: the source recursion has no visited set, only the guard
`if mhost == host_name: continue` against immediate self-loops, so it is
not structurally terminating; `none` means every fuel bound is exceeded
(the Python original would hit `RecursionError`). -/
def find_childs_of_host (c : CacheData) (fuel : Nat) (host_name : String)
    (recursive ci : Bool) : Option (List String) :=
  match fuel with
  | 0 => none
  | fuel + 1 =>
    let hosts := cacheFindHosts c host_name ci
    let res := dedupFirst ((hosts.map HostInfo.childs).flatten)
    if recursive then
      let more := res.foldl
        (fun acc m =>
          match acc with
          | none => none
          | some acc' =>
            if m == host_name then some acc'
            else
              match find_childs_of_host c fuel m true false with
              | none => none
              | some r => some (acc' ++ r))
        (some [])
      match more with
      | none => none
      | some more' => some (dedupFirst (res ++ more'))
    else some res

/-- `InfoCache.find_parents_of_host`. -/
def find_parents_of_host (c : CacheData) (host_name : String) (ci : Bool) : List String :=
  dedupFirst (((cacheFindHosts c host_name ci).map HostInfo.parents).flatten)

/-- `InfoCache.find_similar_hosts`.  The non-boundary branch is a
substring search over name and alias; the boundary branch compiles
`WORD_BOUND + (".*"? + hostname) + WORD_BOUND` and `re.match`es it
against name and alias.  Note the source quirk kept here: in the
case-insensitive substring branch the self-exclusion compares the
original name against the lower-cased keyword. -/
def find_similar_hosts (c : CacheData) (hostname : String) (ci boundary : Bool) :
    List String :=
  if !boundary then
    if !ci then
      c.hosts.filterMap (fun h =>
        if (hasSubstr h.id.name hostname || hasSubstr h.id.aliasName hostname)
            && h.id.name != hostname then some h.id.name else none)
    else
      let hn := strLower hostname
      c.hosts.filterMap (fun h =>
        if (hasSubstr (strLower h.id.name) hn || hasSubstr (strLower h.id.aliasName) hn)
            && h.id.name != hn then some h.id.name else none)
  else
    let re1 := boundaryWrap (lqCompat (Frag.ofString hostname))
    c.hosts.filterMap (fun h =>
      if (rmatchB ci re1 h.id.name || rmatchB ci re1 h.id.aliasName)
          && h.id.name != hostname then some h.id.name else none)

/-- `InfoCache.find_services`.  `boundary` is applied to `name_frag`
only; `opt_id` (`optional_identifier`) is compiled as-is and `re.match`ed;
`host_frag` gets the LQ-compat prefix but no boundary wrap. -/
def find_services (c : CacheData) (name_frag : Frag) (opt_id : Option Reg)
    (ci boundary : Bool) (host_frag : Option Frag) : List (String × String) :=
  let nf := lqCompat name_frag
  let nreg := if boundary then boundaryWrap nf else nf.toReg
  let rhost := (host_frag.map lqCompat).map Frag.toReg
  dedupFirst (c.svcs.filterMap (fun s =>
    if (rmatchB ci nreg s.name ||
        (match opt_id with
         | some r2 => rmatchB ci r2 s.name
         | none => false))
        &&
        (match rhost with
         | some rh => rmatchB ci rh s.host.name
         | none => true)
    then some (s.host.name, s.name) else none))

/-! ## Environment / rule configuration (`Env` in `auto_downtimes_common.py`)

Only the fields the embedded code paths read.  Python `None`-or-empty
("falsy") strings are modelled as `Option String` where the source
distinguishes `None`, and as `""` where it only tests truthiness. -/

structure EnvCfg : Type where
  case_insensitive : Bool
  strip_fqdn : Bool
  hostname_boundary_match : Bool
  default_downtime : Int
  dependency_detection : Option String
  manual_targets : List (List String)
  optional_identifier : String
  my_host_name : String
  my_svc_name : String
  monitor_host : String
  monitor_svc : Option String
  monitor_svc_regex : Option String
deriving Repr, DecidableEq

/-- Python truthiness of an optional string (`None` and `""` are falsy). -/
def optTruthy (o : Option String) : Bool :=
  match o with
  | some s => s != ""
  | none => false

/-- A resolved target `(label, host, service)`; `service = ""` encodes a
host target, exactly as in the source's 3-tuples. -/
def Target : Type := String × String × String

instance : DecidableEq Target := by
  unfold Target
  infer_instance

instance : Repr Target := by
  unfold Target
  infer_instance

/-- Equality of `Except` outcomes is decidable componentwise. -/
def exceptDecEq {e a : Type} [DecidableEq e] [DecidableEq a] :
    DecidableEq (Except e a) := fun x y =>
  match x, y with
  | .error e1, .error e2 =>
    if h : e1 = e2 then isTrue (by rw [h])
    else isFalse (fun hh => h (by injection hh))
  | .error _, .ok _ => isFalse (fun hh => Except.noConfusion hh)
  | .ok _, .error _ => isFalse (fun hh => Except.noConfusion hh)
  | .ok a1, .ok a2 =>
    if h : a1 = a2 then isTrue (by rw [h])
    else isFalse (fun hh => h (by injection hh))

instance {e a : Type} [DecidableEq e] [DecidableEq a] : DecidableEq (Except e a) :=
  exceptDecEq

/-! ## Target-list building (`TargetListBuilder` in
`check_auto_downtimes.py`)

Each `add_*` method appends to the builder's result tuple; none of them
deduplicates across methods.  `safe_create` is modelled as a function
from the environment and the directory snapshot to either an exit code
(`Except.error`, the argument of `do_exit`) or the finished target list;
the outer `Option` is the fuel bound of the child recursion (`none` only
when `find_childs_of_host` exceeds every stack depth). -/

/-- `TargetListBuilder.add_myself`. -/
def add_myself (host_name : String) : List Target :=
  [("Auto-detected host itself", host_name, "")]

/-- `TargetListBuilder.add_similar_host_names`. -/
def add_similar_host_names (env : EnvCfg) (c : CacheData) (host_name : String) :
    List Target :=
  let hns := if env.strip_fqdn then try_strip_fqdn host_name else host_name
  (find_similar_hosts c hns env.case_insensitive env.hostname_boundary_match).map
    (fun h => (("Similar hostname", h, "") : Target))

/-- `TargetListBuilder.add_childs_from_parent` (given the already expanded
child list). -/
def add_childs_entries (childs : List String) : List Target :=
  childs.map (fun ch => (("Auto-detected child host " ++ ch, ch, "") : Target))

/-- `TargetListBuilder.add_dependant_services`. -/
def add_dependant_services (env : EnvCfg) (c : CacheData) (host_name : String) :
    List Target :=
  let hns := if env.strip_fqdn then try_strip_fqdn host_name else host_name
  let optId := if env.optional_identifier == "" then none
    else some (Frag.ofString env.optional_identifier).toReg
  (find_services c (Frag.ofString hns) optId env.case_insensitive
      env.hostname_boundary_match none).map
    (fun p => ((("Auto-detected dependent service" : String), p.1, p.2) : Target))

/-- `TargetListBuilder.add` (manual target triple `(label, host_re, svc_re)`). -/
def builder_add (env : EnvCfg) (c : CacheData) (label host_re svc_re : String) :
    List Target :=
  if svc_re == "" then
    (find_hosts c (Frag.ofString host_re) env.case_insensitive).map
      (fun ch => ((label, ch, "") : Target))
  else
    (find_services c (Frag.ofString svc_re) none env.case_insensitive false
        (some (Frag.ofString host_re))).map
      (fun p => ((label, p.1, p.2) : Target))

/-- The `specify_targets` loop of `TargetListBuilder.safe_create`.  A
length-2 entry with a truthy host calls `tgt_list.add(m[0], m[1], "")`,
which passes three arguments to the one-parameter `add` method: the
resulting `TypeError` reaches the top-level handler, which also exits
with `NAGRES_CRASH`, so that path is an error with the same code. -/
def specify_loop (env : EnvCfg) (c : CacheData) : List (List String) →
    Except Nat (List Target)
  | [] => .ok []
  | m :: ms =>
    if m.length < 1 || m.length > 3 then .error NAGRES_CRASH
    else if m.length == 2 && m.getD 1 "" != "" then .error NAGRES_CRASH
    else if m.length == 3 && m.getD 1 "" != "" then
      match specify_loop env c ms with
      | .error e => .error e
      | .ok rest => .ok (builder_add env c (m.getD 0 "") (m.getD 1 "") (m.getD 2 "") ++ rest)
    else .error NAGRES_CRASH

/-- `TargetListBuilder.safe_create`.  `search_parent_child` reaches
`find_services_by_host`, which unconditionally raises ("This code ist not
implemented"), whenever the reference host has at least one parent; the
top-level handler turns that into `NAGRES_CRASH`. -/
def safe_create (fuel : Nat) (env : EnvCfg) (maintenance_by : String)
    (c : CacheData) : Option (Except Nat (List Target)) :=
  if env.dependency_detection == some "fully_automated" then
    match find_childs_of_host c fuel env.my_host_name true env.case_insensitive with
    | none => none
    | some childs =>
      let r0 := if maintenance_by == "service" then add_myself env.my_host_name else []
      some (.ok (r0 ++ add_similar_host_names env c env.my_host_name
        ++ add_childs_entries childs
        ++ add_dependant_services env c env.my_host_name))
  else if env.dependency_detection == some "search_parent_child" then
    match find_childs_of_host c fuel env.my_host_name true env.case_insensitive with
    | none => none
    | some childs =>
      if (find_parents_of_host c env.my_host_name env.case_insensitive).isEmpty then
        some (.ok (add_myself env.my_host_name
          ++ add_dependant_services env c env.my_host_name
          ++ add_childs_entries childs))
      else some (.error NAGRES_CRASH)
  else if env.dependency_detection == some "search_child" then
    match find_childs_of_host c fuel env.my_host_name true env.case_insensitive with
    | none => none
    | some childs =>
      some (.ok (add_myself env.my_host_name ++ add_childs_entries childs))
  else if env.dependency_detection == some "specify_targets" then
    match specify_loop env c env.manual_targets with
    | .error e => some (.error e)
    | .ok res => if res.isEmpty then some (.error NAGRES_CRASH) else some (.ok res)
  else some (.error NAGRES_CRASH)

/-- `_get_maint_by` from `check_auto_downtimes.py`: classifies the rule as
host- or service-monitoring, or exits (`NAGRES_CRASH`) when monitor host
or service is undefined.  The first branch tests `monitor_svc is None`
and `monitor_svc_regex is None` (identity with `None`, not truthiness:
`some ""` fails it), the later branches test truthiness, exactly as the
source does. -/
def get_maint_by (env : EnvCfg) : Except Nat String :=
  if env.monitor_host != "" && env.monitor_svc == none
      && env.monitor_svc_regex == none then .ok "host"
  else if env.monitor_host != "" && optTruthy env.monitor_svc
      && optTruthy env.monitor_svc_regex then .ok "service"
  else if env.monitor_host != "" && optTruthy env.monitor_svc then .ok "service"
  else .error NAGRES_CRASH

/-! ## Per-rule state cache (`LocalState` / `LocalStateCache` in
`auto_downtimes_cache.py`)

File I/O is abstracted: a load sees either `none` (no file, or any read
error — the source catches those and falls through to the same empty
result) or the file's modification time together with the unpickled
state.  All times are integer seconds. -/

structure LocalState : Type where
  tgt_list : Option (List Target)
  no_active_maint : Option Bool
  normal_check_interval : Option Int
  short_lived_refresh : Option Int
  cfg_hash : Option String
  last_update_ts : Option Int
deriving Repr, DecidableEq

/-- The short-lived-data gate in `LocalStateCache.load`: refresh when
`_short_lived_refresh` is unset or older than `(dt_dur_mins / 3) * 60`
seconds (exactly `20 * dt_dur_mins`; the float rounding of the Python
expression is below one part in 2^50 and is not modelled). -/
def shortLivedStale (now dt_dur_mins : Int) (st : LocalState) : Bool :=
  match st.short_lived_refresh with
  | none => true
  | some slr => decide (now - slr > 20 * dt_dur_mins)

/-- The in-place mutation `load` applies to a state it accepts: stale
short-lived data is cleared (`normal_check_interval := None`,
`_short_lived_refresh := now`). -/
def shortLivedAdjust (now dt_dur_mins : Int) (st : LocalState) : LocalState :=
  if shortLivedStale now dt_dur_mins st then
    { st with short_lived_refresh := some now, normal_check_interval := none }
  else st

/-- `LocalStateCache.load`.  Returns `(state, age)`; `(none, none)` is the
"empty state" outcome (the caller then builds `LocalState(None, None)`).
`file` is `none` when the state file is absent or unreadable;
`info_cache_file_time` is the directory snapshot's mtime (`None` when the
snapshot is expired or missing, as passed by `_get_local_state`). -/
def localStateCache_load (now : Int) (file : Option (Int × LocalState))
    (info_cache_file_time : Option Int) (dt_dur_mins : Int) (cfg_hash : String) :
    Option LocalState × Option Int :=
  match file with
  | none => (none, none)
  | some (mtime, data) =>
    let age := now - mtime
    let fresh : Bool := decide (age < 60 * MAX_CACHE_AGE_MINUTES) &&
      (match info_cache_file_time with
       | some t => decide (mtime ≥ t)
       | none => false)
    if fresh then
      if data.cfg_hash != some cfg_hash then (none, none)
      else
        let data2 := shortLivedAdjust now dt_dur_mins data
        match data2.last_update_ts with
        | some ts =>
          let age2 := now - ts
          if age2 > 60 * MAX_CACHE_AGE_MINUTES then (none, none)
          else (some data2, some age2)
        | none => (some data2, some age)
    else (none, none)

/-- `LocalStateCache.write`.  `Except.error` models the uncaught
`raise Exception(...)` (nothing is persisted on that path); `Except.ok`
carries the state as pickled to disk. -/
def localStateCache_write (now : Int) (st : LocalState) (cfg_hash : String) :
    Except String LocalState :=
  if (match st.cfg_hash with
      | some h0 => h0 != cfg_hash
      | none => false) then
    .error "Trying to update cfg_hash with another one in localstate"
  else
    let st1 := if st.cfg_hash.isNone then { st with cfg_hash := some cfg_hash } else st
    let st2 := if st1.last_update_ts.isNone then { st1 with last_update_ts := some now }
      else st1
    .ok st2

/-! ## Directory-cache rebuild (`InfoCache._update` and `FLock`)

`FLock.acquire` takes `fcntl.LOCK_EX | LOCK_NB` and raises
`FLockException` when the lock is held elsewhere; `_update` catches
exactly that exception and returns `False`.  The API inventory calls and
the snapshot write are the observable effects; both happen strictly after
the lock is acquired. -/

inductive CacheEffect : Type
  | apiGetHosts : CacheEffect
  | apiGetServices : CacheEffect
  | writeSnapshotFile : CacheEffect
deriving Repr, DecidableEq

/-- `FLock.acquire`: succeeds exactly when no other process holds the
lock (non-blocking, no retry). -/
def flock_acquire (lock_free : Bool) : Bool := lock_free

/-- `InfoCache._update`: result flag, effects issued (in order), and the
snapshot written (if any). -/
def infoCache_update (lock_free : Bool) (api_hosts : List HostInfo)
    (api_svcs : List SvcInfo) : Bool × List CacheEffect × Option CacheData :=
  if flock_acquire lock_free then
    (true, [CacheEffect.apiGetHosts, CacheEffect.apiGetServices,
      CacheEffect.writeSnapshotFile], some ⟨api_hosts, api_svcs⟩)
  else (false, [], none)

/-! ## Downtimes and the reconciliation engine (`check_auto_downtimes.py`)

`Downtimes.get_hash()` is the truncated SHA-1 of
`"check_auto_downtimes" + my_host_name + my_svc_name`; within one run it
is a fixed string, so the engine model takes it as the parameter
`dt_hash` (the digest function itself is an external library call).  The
engine's observable output is the ordered list of MonitoringAPI
*mutation* calls it issues (queries such as `get_downtimes` are reads and
not listed). -/

structure Downtime : Type where
  id : String
  title : String
  host_name : String
  svc_name : String
  is_svc_dt : Bool
  start_time : Int
  end_time : Int
  author : String
  comment : String
deriving Repr, DecidableEq

/-- `Downtimes.find`: each filter applies only when its argument is
truthy (`""` encodes Python `None` throughout). -/
def downtimes_find (dts : List Downtime) (host_name svc_name comment_find : String)
    (dt_type : String) : List Downtime :=
  dts.filter (fun dt =>
    (host_name == "" || dt.host_name == host_name) &&
    (svc_name == "" || dt.svc_name == svc_name) &&
    (comment_find == "" || hasSubstr dt.comment comment_find) &&
    !(dt_type == "H" && dt.is_svc_dt) &&
    !(dt_type == "S" && !dt.is_svc_dt))

/-- A MonitoringAPI mutation call. -/
inductive ApiCall : Type
  | setDowntimes : String → Int → Int → List (String × Option (List String)) → ApiCall
  | delByKeyword : String → Option Int → ApiCall
deriving Repr, DecidableEq

/-- The comment template of `Downtimes.add_all`. -/
def mkComment (my_svc my_host dt_hash : String) : String :=
  "MAINT#" ++ dt_hash ++ " $TYP$-DT (set by rule '" ++ my_svc ++ "@" ++ my_host ++ "')"

/-- `Downtimes.add_all`: one batched `set_downtimes` for all targets with
the shared window `[now, now + default_downtime minutes]`; when
`remove_existing`, a `delete_downtimes_by_keyword("MAINT#" + hash,
start - 5s)` follows the add (after a fixed 2-second sleep, not
modelled as an effect). -/
def downtimes_add_all (my_svc my_host dt_hash : String) (default_downtime : Int)
    (now : Int) (targets : List (String × Option String)) (remove_existing : Bool) :
    List ApiCall :=
  let comment := mkComment my_svc my_host dt_hash
  let tgts := targets.map (fun t =>
    match t.2 with
    | none => (t.1, (none : Option (List String)))
    | some s => (t.1, some [s]))
  [ApiCall.setDowntimes comment now (now + 60 * default_downtime) tgts] ++
    (if remove_existing then
      [ApiCall.delByKeyword ("MAINT#" ++ dt_hash) (some (now - 5))]
    else [])

/-- `Downtimes.remove_all_own`: a single keyword-scoped batch delete. -/
def downtimes_remove_all_own (dt_hash : String) : List ApiCall :=
  [ApiCall.delByKeyword ("MAINT#" ++ dt_hash) none]

/-- One element of `host_svc_list` in `main`. -/
structure HostSvcEntry : Type where
  op : String
  host : String
  svc : String
  msg : String
deriving Repr, DecidableEq

/-- The per-(host, service) decision of the maintenance branch of `main`
(the target's label is ignored there: `_ = target[0]`).  More than one
correlated downtime is the skip-anomaly; exactly one yields a `readd`
entry only when the whole run needs a re-add; none yields an `add`. -/
def entry_for_pair (curr_dts : List Downtime) (dt_hash : String) (needing : Bool)
    (p : String × String) : Option HostSvcEntry :=
  match downtimes_find curr_dts p.1 p.2 dt_hash "*" with
  | [] => some ⟨"add", p.1, p.2, "Adding downtime"⟩
  | [_] => if needing then
      some ⟨"readd", p.1, p.2, "(Removing/)Adding downtime for extension"⟩
    else none
  | _ => none

/-- Whether one target forces the batch re-add: exactly one correlated
downtime whose end lies within `2 * normal_check_interval` of now. -/
def target_needs_readd (curr_dts : List Downtime) (dt_hash : String)
    (normal_check_interval now : Int) (t : Target) : Bool :=
  match downtimes_find curr_dts t.2.1 t.2.2 dt_hash "*" with
  | [dt] => decide (now > dt.end_time - normal_check_interval * 2)
  | _ => false

/-- The non-maintenance branch's entry: a `batch_del` stats entry for each
target that still has a correlated downtime. -/
def entry_for_pair_del (curr_dts : List Downtime) (dt_hash : String)
    (p : String × String) : Option HostSvcEntry :=
  if (downtimes_find curr_dts p.1 p.2 dt_hash "*").length > 0 then
    some ⟨"batch_del", p.1, p.2, "Batch removing downtime for finished maintenance"⟩
  else none

/-- `reversed(list(set(host_svc_list)))` (set iteration order modelled as
insertion order; no claim below depends on the order inside the batch). -/
def entriesOf (host_svc_list : List HostSvcEntry) : List HostSvcEntry :=
  (dedupFirst host_svc_list).reverse

/-- The `add_targets` accumulation of `main`'s apply section. -/
def buildAddTargets (entries : List HostSvcEntry) : List (String × Option String) :=
  (entries.filter (fun e => e.op == "add" || e.op == "readd")).map
    (fun e => (e.host, if e.svc == "" then none else some e.svc))

/-- The `remove_old` accumulation of `main`'s apply section. -/
def buildRemoveOld (entries : List HostSvcEntry) : Bool :=
  (entries.filter (fun e => e.op == "add" || e.op == "readd")).any
    (fun e => e.op == "readd")

/-- The apply section of `main` ("Apply remaining changes to downtimes"):
mutation calls plus the `(added, readded, removed)` stats. -/
def applyChanges (my_svc my_host dt_hash : String) (default_downtime now : Int)
    (host_svc_list : List HostSvcEntry) : List ApiCall × Nat × Nat × Nat :=
  if host_svc_list.isEmpty then ([], 0, 0, 0)
  else
    let entries := entriesOf host_svc_list
    let add_targets := buildAddTargets entries
    let calls := if add_targets.isEmpty then []
      else downtimes_add_all my_svc my_host dt_hash default_downtime now add_targets
        (buildRemoveOld entries)
    (calls,
      (entries.filter (fun e => e.op == "add")).length,
      (entries.filter (fun e => e.op == "readd")).length,
      (entries.filter (fun e => e.op == "batch_del")).length)

/-- The outcome of one reconciliation run. -/
structure ReconcileOut : Type where
  calls : List ApiCall
  no_active_maint : Option Bool
  dt_added : Nat
  dt_readded : Nat
  dt_removed : Nat
deriving Repr, DecidableEq

/-- The downtime-reconciliation phase of `main` (everything between the
`_needs_maintenance` verdict and the plugin-output section), as the
ordered list of MonitoringAPI mutation calls plus the updated
`no_active_maint` flag and the run's stats. -/
def mainReconcile (my_host my_svc dt_hash : String)
    (default_downtime normal_check_interval : Int) (tgt_list : List Target)
    (curr_dts : List Downtime) (no_active_maint0 : Option Bool)
    (maintenance : Bool) (now : Int) : ReconcileOut :=
  if !maintenance then
    if no_active_maint0 == some true then
      { calls := [], no_active_maint := some true,
        dt_added := 0, dt_readded := 0, dt_removed := 0 }
    else
      let host_svc_list := tgt_list.filterMap
        (fun t => entry_for_pair_del curr_dts dt_hash (t.2.1, t.2.2))
      let applied := applyChanges my_svc my_host dt_hash default_downtime now
        host_svc_list
      { calls := downtimes_remove_all_own dt_hash ++ applied.1,
        no_active_maint := some true,
        dt_added := applied.2.1, dt_readded := applied.2.2.1,
        dt_removed := applied.2.2.2 }
  else
    let needing := tgt_list.any
      (target_needs_readd curr_dts dt_hash normal_check_interval now)
    let host_svc_list := tgt_list.filterMap
      (fun t => entry_for_pair curr_dts dt_hash needing (t.2.1, t.2.2))
    let applied := applyChanges my_svc my_host dt_hash default_downtime now
      host_svc_list
    { calls := applied.1, no_active_maint := some false,
      dt_added := applied.2.1, dt_readded := applied.2.2.1,
      dt_removed := applied.2.2.2 }

/-! ## Spec-side definitions and concrete fixtures -/

/-- Modelled from the spec: the boundary class "word boundary,
underscore, space, or end-of-string". -/
def spec_boundary_class : Reg :=
  .alt .wordB (.alt (.lit '_') (.alt (.lit ' ') .eos))

/-- Modelled from the spec: "the effective pattern is the user fragment
anchored by a boundary class ... on both sides, applied case-insensitively
if requested; unanchored fragments are implicitly prefixed with any
characters to emulate substring search." -/
def spec_effective_pattern (f : Frag) : Reg :=
  let anchored := if f.caret then Frag.toReg f else .cat (.star .anyc) f.body
  .cat spec_boundary_class (.cat anchored spec_boundary_class)

/-- Whether a mutation call is a (batched) downtime add. -/
def isSetCall : ApiCall → Bool
  | .setDowntimes _ _ _ _ => true
  | _ => false

/-- Whether a mutation call is a (batched) downtime removal. -/
def isDelCall : ApiCall → Bool
  | .delByKeyword _ _ => true
  | _ => false

/-- Whether a removal is issued strictly before the first batched add in
a call sequence. -/
def removalPrecedesSet (calls : List ApiCall) : Bool :=
  match calls.findIdx? isDelCall, calls.findIdx? isSetCall with
  | some i, some j => decide (i < j)
  | _, _ => false

/-- Fixture: host `db1` with one child `db1sub` whose name contains
`db1` as a substring, so the fully-automated resolver reaches it both as
a "similar hostname" and as a child. -/
def hostDb1 : HostInfo := ⟨⟨"db1", "adb1", ""⟩, [], [], ["db1sub"]⟩

def hostDb1sub : HostInfo := ⟨⟨"db1sub", "adb1sub", ""⟩, ["db1"], [], []⟩

def cacheC1 : CacheData := ⟨[hostDb1, hostDb1sub], []⟩

/-- Fixture: a fully-automated rule on `db1` with substring host search
(`--no_hostname_boundary_match`). -/
def envC1 : EnvCfg :=
  { case_insensitive := false, strip_fqdn := false, hostname_boundary_match := false,
    default_downtime := 30, dependency_detection := some "fully_automated",
    manual_targets := [], optional_identifier := "", my_host_name := "db1",
    my_svc_name := "autodt", monitor_host := "db1", monitor_svc := none,
    monitor_svc_regex := none }

/-- Fixture: a correlated downtime one minute from expiry (now = 1000,
end = 1060) against a 5-minute (300 s) check interval. -/
def dtC2 : Downtime :=
  ⟨"77", "t", "h1", "", false, 0, 1060, "auto", "MAINT#deadbeef0123 Host-DT"⟩

/-- Fixture: a two-host parent/child cycle (`a` is a child of `b` and
`b` a child of `a`); aliases differ from both names. -/
def hostCycA : HostInfo := ⟨⟨"a", "xa", ""⟩, ["b"], [], ["b"]⟩

def hostCycB : HostInfo := ⟨⟨"b", "xb", ""⟩, ["a"], [], ["a"]⟩

def cycCache : CacheData := ⟨[hostCycA, hostCycB], []⟩

/-- Fixture: an invalid dependency-detection mode. -/
def envBadMode : EnvCfg :=
  { case_insensitive := false, strip_fqdn := false, hostname_boundary_match := true,
    default_downtime := 30, dependency_detection := some "bogus",
    manual_targets := [], optional_identifier := "", my_host_name := "h",
    my_svc_name := "s", monitor_host := "h", monitor_svc := none,
    monitor_svc_regex := none }

/-- Fixture: `specify_targets` with an empty manual target list. -/
def envSpecEmpty : EnvCfg :=
  { envBadMode with dependency_detection := some "specify_targets" }

/-- Fixture: no monitor host configured. -/
def envNoMonitor : EnvCfg :=
  { envBadMode with monitor_host := "" }

/-- Fixture: `specify_targets` with a well-formed manual target that
resolves to nothing (no host of the directory matches). -/
def envSpecNoMatch : EnvCfg :=
  { envBadMode with
    dependency_detection := some "specify_targets"
    manual_targets := [["grp1", "nomatch", ""]] }

/-- Fixture: an empty-string monitor service (`--monitor_service ""`),
which is neither `None` nor truthy. -/
def envMonSvcEmpty : EnvCfg :=
  { envBadMode with monitor_svc := some "" }

/-- The service component of one batched `set_downtimes` target, as
`Downtimes.add_all` wraps it: a host target (`""`) becomes `none`, a
service target becomes the one-element list. -/
def wrapSvc (sv : String) : Option (List String) :=
  if sv == "" then none else some [sv]

/-! ## General lemmas about the set model -/

theorem mem_dedupFirstAux {α : Type} [DecidableEq α] {a : α} :
    ∀ {l seen : List α}, a ∈ dedupFirstAux seen l ↔ a ∈ l ∧ a ∉ seen := by
  intro l
  induction l with
  | nil => intro seen; simp [dedupFirstAux]
  | cons b bs ih =>
    intro seen
    by_cases hb : b ∈ seen
    · rw [dedupFirstAux, if_pos hb, ih]
      constructor
      · rintro ⟨h1, h2⟩
        exact ⟨List.mem_cons_of_mem _ h1, h2⟩
      · rintro ⟨h1, h2⟩
        rcases List.mem_cons.mp h1 with rfl | h1
        · exact absurd hb h2
        · exact ⟨h1, h2⟩
    · rw [dedupFirstAux, if_neg hb]
      simp only [List.mem_cons, ih, List.mem_cons]
      constructor
      · rintro (rfl | ⟨h1, h2⟩)
        · exact ⟨Or.inl rfl, hb⟩
        · exact ⟨Or.inr h1, fun hs => h2 (Or.inr hs)⟩
      · rintro ⟨rfl | h1, h2⟩
        · exact Or.inl rfl
        · by_cases hab : a = b
          · exact Or.inl hab
          · exact Or.inr ⟨h1, fun hs => hs.elim hab h2⟩

theorem mem_dedupFirst {α : Type} [DecidableEq α] {a : α} {l : List α} :
    a ∈ dedupFirst l ↔ a ∈ l := by
  rw [dedupFirst, mem_dedupFirstAux]
  simp

theorem nodup_dedupFirstAux {α : Type} [DecidableEq α] :
    ∀ (l seen : List α), (dedupFirstAux seen l).Nodup := by
  intro l
  induction l with
  | nil => intro seen; simp [dedupFirstAux]
  | cons b bs ih =>
    intro seen
    rw [dedupFirstAux]
    by_cases hb : b ∈ seen
    · rw [if_pos hb]; exact ih seen
    · rw [if_neg hb]
      refine List.nodup_cons.mpr ⟨?_, ih _⟩
      intro hmem
      exact (mem_dedupFirstAux.mp hmem).2 (List.mem_cons_self b seen)

theorem nodup_dedupFirst {α : Type} [DecidableEq α] (l : List α) :
    (dedupFirst l).Nodup :=
  nodup_dedupFirstAux l []

/-! ## Lemmas about `chunks` -/

theorem chunks_nil {α : Type} (n : Nat) (hn : 0 < n) : chunks ([] : List α) n = [] := by
  unfold chunks
  simp [Nat.div_eq_of_lt (by omega : n - 1 < n)]

theorem chunks_cons {α : Type} {lst : List α} {n : Nat} (hn : 0 < n) (hl : lst ≠ []) :
    chunks lst n = lst.take n :: chunks (lst.drop n) n := by
  have hlen : 1 ≤ lst.length := by
    cases lst with
    | nil => exact absurd rfl hl
    | cons a as => simp
  unfold chunks
  have hm : (lst.length + n - 1) / n = (lst.length - 1) / n + 1 := by
    rw [show lst.length + n - 1 = (lst.length - 1) + n from by omega,
      Nat.add_div_right _ hn]
  have hm2 : ((lst.drop n).length + n - 1) / n = (lst.length - 1) / n := by
    rw [List.length_drop]
    by_cases hcase : n ≤ lst.length
    · rw [show lst.length - n + n - 1 = lst.length - 1 from by omega]
    · rw [show lst.length - n = 0 from by omega,
        Nat.div_eq_of_lt (by omega : 0 + n - 1 < n),
        Nat.div_eq_of_lt (by omega : lst.length - 1 < n)]
  rw [hm, hm2, List.range_succ_eq_map, List.map_cons, List.map_map]
  congr 1
  · simp
  · apply List.map_congr_left
    intro i hi
    simp only [Function.comp_apply]
    rw [List.drop_drop, show n + i * n = (i + 1) * n from by ring]

theorem chunks_length {α : Type} (lst : List α) (n : Nat) :
    (chunks lst n).length = (lst.length + n - 1) / n := by
  simp [chunks]

theorem chunks_flatten_of_le {α : Type} {n : Nat} (hn : 0 < n) :
    ∀ (k : Nat) (lst : List α), lst.length ≤ k → (chunks lst n).flatten = lst := by
  intro k
  induction k with
  | zero =>
    intro lst h
    have hl : lst = [] := List.length_eq_zero.mp (Nat.le_zero.mp h)
    rw [hl, chunks_nil n hn]
    rfl
  | succ k ih =>
    intro lst h
    cases lst with
    | nil =>
      rw [chunks_nil n hn]
      rfl
    | cons a as =>
      have hlen : ((a :: as).drop n).length ≤ k := by
        rw [List.length_drop]
        simp only [List.length_cons] at h ⊢
        omega
      calc ((chunks (a :: as) n).flatten)
          = ((a :: as).take n :: chunks ((a :: as).drop n) n).flatten := by
            rw [chunks_cons hn (by simp)]
        _ = (a :: as).take n ++ (chunks ((a :: as).drop n) n).flatten :=
            List.flatten_cons
        _ = (a :: as).take n ++ (a :: as).drop n := by rw [ih _ hlen]
        _ = a :: as := List.take_append_drop n _

/-- C10: for every list and every positive chunk size, `chunks` returns
consecutive slices whose concatenation is the input, every slice has at
most `n` elements, every slice except possibly the last has exactly `n`
elements, and the empty list yields no chunks. -/
theorem chunks_spec {α : Type} (lst : List α) (n : Nat) (hn : 0 < n) :
    (chunks lst n).flatten = lst ∧
    (∀ c ∈ chunks lst n, c.length ≤ n) ∧
    (∀ i c, i + 1 < (chunks lst n).length → (chunks lst n)[i]? = some c →
      c.length = n) ∧
    chunks ([] : List α) n = [] := by
  refine ⟨chunks_flatten_of_le hn lst.length lst le_rfl, ?_, ?_, chunks_nil n hn⟩
  · intro c hc
    unfold chunks at hc
    rcases List.mem_map.mp hc with ⟨i, hi, rfl⟩
    exact List.length_take_le _ _
  · intro i c hi hc
    rw [chunks_length] at hi
    unfold chunks at hc
    rw [List.getElem?_map, List.getElem?_range (by omega : i < (lst.length + n - 1) / n)]
      at hc
    simp only [Option.map_some'] at hc
    cases hc
    rw [List.length_take, List.length_drop]
    have h2 : (i + 2) * n ≤ lst.length + n - 1 :=
      (Nat.le_div_iff_mul_le hn).mp (by omega : i + 2 ≤ (lst.length + n - 1) / n)
    rw [Nat.add_mul] at h2
    omega

/-- Witness for C10 at a concrete input. -/
theorem chunks_spec_witness :
    (chunks [1, 2, 3, 4, 5] 2).flatten = [1, 2, 3, 4, 5] :=
  (chunks_spec [1, 2, 3, 4, 5] 2 (by decide)).1

/-! ## Reconciliation engine: steady state and extension behaviour -/

/-- C3: when the maintenance condition is not required and the persisted
`no_active_maint` flag is already `true`, the run issues no MonitoringAPI
mutation call at all (no add, re-add or delete). -/
theorem no_maintenance_steady_state_no_calls (my_host my_svc dt_hash : String)
    (default_downtime normal_check_interval : Int) (tgt_list : List Target)
    (curr_dts : List Downtime) (now : Int) :
    (mainReconcile my_host my_svc dt_hash default_downtime normal_check_interval
      tgt_list curr_dts (some true) false now).calls = [] := rfl

/-- C6: a rebuild that fails to acquire the exclusive non-blocking lock
returns `false` immediately, querying no host or service inventory and
writing no snapshot (and, being a plain return, neither retrying nor
blocking). -/
theorem rebuild_lock_contention_no_effects (api_hosts : List HostInfo)
    (api_svcs : List SvcInfo) :
    infoCache_update false api_hosts api_svcs = (false, [], none) := rfl

/-- C8: the per-rule state write raises (and persists nothing) exactly
when the state's stored fingerprint is set and differs from the one being
written; with an unset fingerprint it stores the new fingerprint, stamps
`last_update_ts` if unset, and persists. -/
theorem state_write_fingerprint_guard (now : Int) (st : LocalState) (cf : String) :
    (∀ h0, st.cfg_hash = some h0 → h0 ≠ cf →
      localStateCache_write now st cf =
        .error "Trying to update cfg_hash with another one in localstate") ∧
    (st.cfg_hash = none →
      localStateCache_write now st cf =
        .ok { st with
              cfg_hash := some cf
              last_update_ts := (if st.last_update_ts.isNone then some now
                  else st.last_update_ts) }) := by
  constructor
  · intro h0 hset hne
    unfold localStateCache_write
    rw [hset]
    rw [if_pos (by simp [hne])]
  · intro hnone
    unfold localStateCache_write
    rw [hnone]
    simp only [Bool.false_eq_true, if_false, Option.isNone_none, if_true]
    cases hl : st.last_update_ts with
    | none => simp [hnone, hl]
    | some t => simp [hnone, hl]

/-- Witness for C8: a conflicting fingerprint raises; an unset one is
stored and stamped. -/
theorem state_write_fingerprint_guard_witness :
    localStateCache_write 7 ⟨none, none, none, none, some "y", none⟩ "x" =
      .error "Trying to update cfg_hash with another one in localstate" ∧
    localStateCache_write 7 ⟨none, none, none, none, none, none⟩ "x" =
      .ok ⟨none, none, none, none, some "x", some 7⟩ :=
  ⟨(state_write_fingerprint_guard 7 ⟨none, none, none, none, some "y", none⟩ "x").1
      "y" rfl (by decide),
    by
      have h := (state_write_fingerprint_guard 7
        ⟨none, none, none, none, none, none⟩ "x").2 rfl
      simpa using h⟩

/-! ## C4: the recursive child expansion on a parent/child cycle -/

theorem cyc_step_a (f : Nat) :
    find_childs_of_host cycCache (f + 1) "a" true false =
      (match (match find_childs_of_host cycCache f "b" true false with
              | none => none
              | some r => some (([] : List String) ++ r)) with
       | none => none
       | some more' => some (dedupFirst (["b"] ++ more'))) := rfl

theorem cyc_step_b (f : Nat) :
    find_childs_of_host cycCache (f + 1) "b" true false =
      (match (match find_childs_of_host cycCache f "a" true false with
              | none => none
              | some r => some (([] : List String) ++ r)) with
       | none => none
       | some more' => some (dedupFirst (["a"] ++ more'))) := rfl

theorem cyc_no_fuel_suffices (fuel : Nat) :
    find_childs_of_host cycCache fuel "a" true false = none ∧
    find_childs_of_host cycCache fuel "b" true false = none := by
  induction fuel with
  | zero => exact ⟨rfl, rfl⟩
  | succ f ih =>
    refine ⟨?_, ?_⟩
    · rw [cyc_step_a f, ih.2]
    · rw [cyc_step_b f, ih.1]

/-- C4: on the two-host cycle `a <-> b` the source's recursive child
expansion (whose only guard is against immediate self-loops) exhausts
every fuel bound, i.e. the recursion never returns: the expansion
revisits already-visited hosts and does not terminate, where the claim
asserts cycle-safe termination. -/
theorem find_childs_cycle_diverges (fuel : Nat) :
    find_childs_of_host cycCache fuel "a" true false = none :=
  (cyc_no_fuel_suffices fuel).1

/-! ## C5: per-rule state load characterization -/

theorem shortLivedAdjust_last (now dur : Int) (st : LocalState) :
    (shortLivedAdjust now dur st).last_update_ts = st.last_update_ts := by
  unfold shortLivedAdjust
  split <;> rfl

/-- C5 counterexample: a persisted state whose file mtime is fresh
(10 s old), not older than the directory snapshot (9990 vs 9000) and
whose fingerprint matches, yet `load` returns the empty state, because
the stored `_last_update_ts` (1000, i.e. 9000 s old) fails the
data-internal age check the claim does not mention. -/
theorem state_load_rejects_fresh_matching_state :
    (10000 - 9990 < 60 * MAX_CACHE_AGE_MINUTES) ∧ (9990 : Int) ≥ 9000 ∧
    (LocalState.mk none none (some 300) (some 9900) (some "f") (some 1000)).cfg_hash
      = some "f" ∧
    localStateCache_load 10000
      (some (9990, LocalState.mk none none (some 300) (some 9900) (some "f")
        (some 1000)))
      (some 9000) 30 "f" = (none, none) := by
  refine ⟨by norm_num [MAX_CACHE_AGE_MINUTES], by norm_num, rfl, ?_⟩
  decide

/-- C5 (amended): `load` returns the empty state iff the file mtime is
at least `MAX_CACHE_AGE` old, or there is no usable directory-snapshot
time, or the mtime is older than the snapshot time, or the stored
fingerprint differs from the supplied one, or the state's own
`_last_update_ts` is more than `MAX_CACHE_AGE` old; otherwise it returns
the persisted state with only the short-lived-data adjustment applied. -/
theorem state_load_characterization (now mtime : Int) (st : LocalState)
    (ict : Option Int) (dur : Int) (cf : String) :
    ((localStateCache_load now (some (mtime, st)) ict dur cf).1 = none ↔
      (now - mtime ≥ 60 * MAX_CACHE_AGE_MINUTES ∨ ict = none ∨
        (∃ t, ict = some t ∧ mtime < t) ∨ st.cfg_hash ≠ some cf ∨
        (∃ ts, st.last_update_ts = some ts ∧
          now - ts > 60 * MAX_CACHE_AGE_MINUTES))) ∧
    (∀ st', (localStateCache_load now (some (mtime, st)) ict dur cf).1 = some st' →
      st' = shortLivedAdjust now dur st) := by
  unfold localStateCache_load
  dsimp only
  rcases ict with _ | t
  · have hfresh : (decide (now - mtime < 60 * MAX_CACHE_AGE_MINUTES) &&
        (match (none : Option Int) with
         | some t => decide (mtime ≥ t)
         | none => false)) = false := Bool.and_false _
    rw [hfresh]
    simp only [Bool.false_eq_true, if_false]
    constructor
    · simp
    · intro st' h
      simp at h
  · by_cases h1 : now - mtime < 60 * MAX_CACHE_AGE_MINUTES
    · by_cases h2 : mtime ≥ t
      · have hfresh : (decide (now - mtime < 60 * MAX_CACHE_AGE_MINUTES) &&
            (match (some t : Option Int) with
             | some t => decide (mtime ≥ t)
             | none => false)) = true := by
          simp [h1, h2]
        rw [if_pos hfresh]
        by_cases h3 : st.cfg_hash = some cf
        · rw [if_neg (by simp [h3] : ¬(st.cfg_hash != some cf) = true)]
          rcases hl : st.last_update_ts with _ | ts
          · have hladj : (shortLivedAdjust now dur st).last_update_ts = none := by
              rw [shortLivedAdjust_last, hl]
            simp only [hladj]
            constructor
            · constructor
              · intro hh
                exact absurd hh (by simp)
              · rintro (hc | hc | ⟨t2, ht2, hlt⟩ | hc | ⟨ts2, hts2, hgt⟩)
                · omega
                · exact absurd hc (by simp)
                · have h5 : t = t2 := by injection ht2
                  omega
                · exact absurd h3 hc
                · exact absurd hts2 (by simp)
            · intro st' h
              simp only [Option.some.injEq] at h
              exact h.symm
          · have hladj : (shortLivedAdjust now dur st).last_update_ts = some ts := by
              rw [shortLivedAdjust_last, hl]
            simp only [hladj]
            by_cases h4 : now - ts > 60 * MAX_CACHE_AGE_MINUTES
            · rw [if_pos h4]
              constructor
              · constructor
                · intro _
                  exact Or.inr (Or.inr (Or.inr (Or.inr ⟨ts, rfl, h4⟩)))
                · intro _
                  rfl
              · intro st' h
                simp at h
            · rw [if_neg h4]
              constructor
              · constructor
                · intro hh
                  exact absurd hh (by simp)
                · rintro (hc | hc | ⟨t2, ht2, hlt⟩ | hc | ⟨ts2, hts2, hgt⟩)
                  · omega
                  · exact absurd hc (by simp)
                  · have h5 : t = t2 := by injection ht2
                    omega
                  · exact absurd h3 hc
                  · have h5 : ts = ts2 := by injection hts2
                    omega
              · intro st' h
                simp only [Option.some.injEq] at h
                exact h.symm
        · rw [if_pos (by simp [bne_iff_ne, h3] : (st.cfg_hash != some cf) = true)]
          constructor
          · constructor
            · intro _
              exact Or.inr (Or.inr (Or.inr (Or.inl h3)))
            · intro _
              rfl
          · intro st' h
            simp at h
      · have hfresh : (decide (now - mtime < 60 * MAX_CACHE_AGE_MINUTES) &&
            (match (some t : Option Int) with
             | some t => decide (mtime ≥ t)
             | none => false)) = false := by
          simp [h2]
        rw [hfresh]
        simp only [Bool.false_eq_true, if_false]
        constructor
        · constructor
          · intro _
            exact Or.inr (Or.inr (Or.inl ⟨t, rfl, by omega⟩))
          · intro _
            trivial
        · intro st' h
          simp at h
    · have hfresh : (decide (now - mtime < 60 * MAX_CACHE_AGE_MINUTES) &&
          (match (some t : Option Int) with
           | some t => decide (mtime ≥ t)
           | none => false)) = false := by
        simp [h1]
      rw [hfresh]
      simp only [Bool.false_eq_true, if_false]
      constructor
      · constructor
        · intro _
          exact Or.inl (by omega)
        · intro _
          trivial
      · intro st' h
        simp at h

/-- Witness for C5 (amended): a fresh, fingerprint-matching, snapshot-
consistent state whose short-lived data is still current is returned
unchanged. -/
theorem state_load_characterization_witness :
    LocalState.mk none none (some 300) (some 9900) (some "f") (some 9800) =
      shortLivedAdjust 10000 30
        (LocalState.mk none none (some 300) (some 9900) (some "f") (some 9800)) :=
  (state_load_characterization 10000 9990
      (LocalState.mk none none (some 300) (some 9900) (some "f") (some 9800))
      (some 9000) 30 "f").2
    (LocalState.mk none none (some 300) (some 9900) (some "f") (some 9800))
    (by decide)

/-! ## C7: configuration-error exit codes -/

/-- C7 counterexample: an invalid `--dependency_detection` mode makes
`safe_create` exit with `NAGRES_CRASH` (3), the same code reserved for
unhandled exceptions, not with `NAGRES_CRIT` (2); `NAGRES_CRIT` is
defined in `auto_downtimes_common.py` but never used. -/
theorem config_error_exits_crash_not_crit :
    safe_create 1 envBadMode "host" ⟨[], []⟩ = some (.error NAGRES_CRASH) ∧
    NAGRES_CRASH ≠ NAGRES_CRIT := by
  constructor
  · decide
  · decide

/-- C7 (amended): every configuration-error path of the embedded code
terminates with `NAGRES_CRASH` (3), the unhandled-exception code, never
with `NAGRES_CRIT` (2): an invalid or missing dependency-detection mode;
a manual target specification the loop rejects as bad; a manual target
list that yields zero resolved targets (empty, or well-formed but
matching nothing); an undefined monitor host; and an empty-string
monitor service (neither `None` nor truthy, so `_get_maint_by` falls
through every branch). -/
theorem config_errors_exit_crash (fuel : Nat) (env : EnvCfg)
    (maintenance_by : String) (c : CacheData) :
    (env.dependency_detection ≠ some "fully_automated" →
      env.dependency_detection ≠ some "search_parent_child" →
      env.dependency_detection ≠ some "search_child" →
      env.dependency_detection ≠ some "specify_targets" →
      safe_create fuel env maintenance_by c = some (.error NAGRES_CRASH)) ∧
    (env.dependency_detection = some "specify_targets" →
      specify_loop env c env.manual_targets = .error NAGRES_CRASH →
      safe_create fuel env maintenance_by c = some (.error NAGRES_CRASH)) ∧
    (env.dependency_detection = some "specify_targets" →
      specify_loop env c env.manual_targets = .ok [] →
      safe_create fuel env maintenance_by c = some (.error NAGRES_CRASH)) ∧
    (env.monitor_host = "" → get_maint_by env = .error NAGRES_CRASH) ∧
    (env.monitor_svc = some "" → get_maint_by env = .error NAGRES_CRASH) := by
  refine ⟨?_, ?_, ?_, ?_, ?_⟩
  · intro h1 h2 h3 h4
    unfold safe_create
    rw [if_neg (by simp [h1]), if_neg (by simp [h2]), if_neg (by simp [h3]),
      if_neg (by simp [h4])]
  · intro hmode hbad
    unfold safe_create
    rw [if_neg (by simp [hmode]), if_neg (by simp [hmode]), if_neg (by simp [hmode]),
      if_pos (by simp [hmode])]
    rw [hbad]
  · intro hmode hempty
    unfold safe_create
    rw [if_neg (by simp [hmode]), if_neg (by simp [hmode]), if_neg (by simp [hmode]),
      if_pos (by simp [hmode])]
    rw [hempty]
    rfl
  · intro hmon
    unfold get_maint_by
    rw [hmon]
    rfl
  · intro hsvc
    unfold get_maint_by
    rw [hsvc]
    have h1 : (env.monitor_host != "" && (some "" : Option String) == none
        && env.monitor_svc_regex == none) = false := by
      simp
    have h2 : (env.monitor_host != "" && optTruthy (some "")
        && optTruthy env.monitor_svc_regex) = false := by
      simp [optTruthy]
    have h3 : (env.monitor_host != "" && optTruthy (some "")) = false := by
      simp [optTruthy]
    rw [h1, h2, h3]
    rfl

/-- Witness for C7 (amended) at five concrete mis-configurations:
invalid mode, a bad manual entry (missing host), an empty manual list, a
well-formed manual target matching no host, and an empty-string monitor
service. -/
theorem config_errors_exit_crash_witness :
    safe_create 1 envBadMode "host" ⟨[], []⟩ = some (.error NAGRES_CRASH) ∧
    safe_create 1 { envSpecEmpty with manual_targets := [["grp1"]] } "host" ⟨[], []⟩
      = some (.error NAGRES_CRASH) ∧
    safe_create 1 envSpecEmpty "host" ⟨[], []⟩ = some (.error NAGRES_CRASH) ∧
    safe_create 1 envSpecNoMatch "host" ⟨[], []⟩ = some (.error NAGRES_CRASH) ∧
    get_maint_by envNoMonitor = .error NAGRES_CRASH ∧
    get_maint_by envMonSvcEmpty = .error NAGRES_CRASH :=
  ⟨(config_errors_exit_crash 1 envBadMode "host" ⟨[], []⟩).1 (by decide) (by decide)
      (by decide) (by decide),
    (config_errors_exit_crash 1 { envSpecEmpty with manual_targets := [["grp1"]] }
      "host" ⟨[], []⟩).2.1 rfl (by decide),
    (config_errors_exit_crash 1 envSpecEmpty "host" ⟨[], []⟩).2.2.1 rfl rfl,
    (config_errors_exit_crash 1 envSpecNoMatch "host" ⟨[], []⟩).2.2.1 rfl (by decide),
    (config_errors_exit_crash 1 envNoMonitor "host" ⟨[], []⟩).2.2.2.1 rfl,
    (config_errors_exit_crash 1 envMonSvcEmpty "host" ⟨[], []⟩).2.2.2.2 rfl⟩

/-! ## C9: word-boundary matching semantics -/

theorem code_pattern_eq_spec (f : Frag) :
    boundaryWrap (lqCompat f) = spec_effective_pattern f := by
  unfold boundaryWrap lqCompat spec_effective_pattern Frag.toReg WORD_BOUND
    spec_boundary_class
  cases f with
  | mk caret body => cases caret <;> simp

/-- C9: with word-boundary matching enabled, the code's match test (the
pattern `WORD_BOUND + (".*"?) + fragment + WORD_BOUND`, `re.match`ed,
case-insensitively when requested) coincides with the spec's effective
pattern — the user fragment anchored on both sides by the boundary class
(word boundary, underscore, space, end-of-string), with an implicit
any-characters prefix when the fragment is not `^`-anchored — on every
candidate; determinism and reproducibility hold because both sides are
the same pure function of the inputs. -/
theorem boundary_matching_follows_spec (f : Frag) (ci : Bool) (cand : String)
    (c : CacheData) (hostname : String) :
    rmatchB ci (boundaryWrap (lqCompat f)) cand =
      rmatchB ci (spec_effective_pattern f) cand ∧
    find_similar_hosts c hostname ci true =
      c.hosts.filterMap (fun h =>
        if (rmatchB ci (spec_effective_pattern (Frag.ofString hostname)) h.id.name ||
            rmatchB ci (spec_effective_pattern (Frag.ofString hostname))
              h.id.aliasName)
            && h.id.name != hostname then some h.id.name else none) := by
  constructor
  · rw [code_pattern_eq_spec]
  · unfold find_similar_hosts
    rw [code_pattern_eq_spec]
    simp

/-! ## C1 / C2: the batched apply section of `main` -/

theorem entry_for_pair_fields (curr_dts : List Downtime) (dt_hash : String)
    (needing : Bool) (p : String × String) (e : HostSvcEntry)
    (h : entry_for_pair curr_dts dt_hash needing p = some e) :
    entry_for_pair curr_dts dt_hash needing (e.host, e.svc) = some e := by
  have hface : e.host = p.1 ∧ e.svc = p.2 := by
    unfold entry_for_pair at h
    rcases hd : downtimes_find curr_dts p.1 p.2 dt_hash "*" with _ | ⟨d, _ | ⟨d2, ds⟩⟩
    · rw [hd] at h
      dsimp only at h
      cases h
      exact ⟨rfl, rfl⟩
    · rw [hd] at h
      dsimp only at h
      cases needing with
      | false => exact absurd h (by simp)
      | true =>
        rw [if_pos rfl] at h
        cases h
        exact ⟨rfl, rfl⟩
    · rw [hd] at h
      dsimp only at h
      exact absurd h (by simp)
  obtain ⟨hh, hs⟩ := hface
  rw [hh, hs]
  exact h

theorem mem_maint_entries {curr_dts : List Downtime} {dt_hash : String}
    {needing : Bool} {tgt_list : List Target} {e : HostSvcEntry}
    (he : e ∈ tgt_list.filterMap
      (fun t => entry_for_pair curr_dts dt_hash needing (t.2.1, t.2.2))) :
    entry_for_pair curr_dts dt_hash needing (e.host, e.svc) = some e := by
  rcases List.mem_filterMap.mp he with ⟨t, _, ht⟩
  exact entry_for_pair_fields _ _ _ _ _ ht

theorem mem_entriesOf {e : HostSvcEntry} {l : List HostSvcEntry} :
    e ∈ entriesOf l ↔ e ∈ l := by
  unfold entriesOf
  rw [List.mem_reverse, mem_dedupFirst]

theorem nodup_entriesOf (l : List HostSvcEntry) : (entriesOf l).Nodup :=
  List.nodup_reverse.mpr (nodup_dedupFirst l)

theorem maint_batch_nodup (curr_dts : List Downtime) (dt_hash : String)
    (needing : Bool) (tgt_list : List Target) :
    ((buildAddTargets (entriesOf (tgt_list.filterMap
        (fun t => entry_for_pair curr_dts dt_hash needing (t.2.1, t.2.2))))).map
      (fun t => match t.2 with
        | none => (t.1, (none : Option (List String)))
        | some s => (t.1, some [s]))).Nodup := by
  unfold buildAddTargets
  rw [List.map_map]
  apply List.Nodup.map_on
  · intro x hx y hy hxy
    have hxl : x ∈ entriesOf (tgt_list.filterMap
        (fun t => entry_for_pair curr_dts dt_hash needing (t.2.1, t.2.2))) :=
      List.mem_of_mem_filter hx
    have hyl : y ∈ entriesOf (tgt_list.filterMap
        (fun t => entry_for_pair curr_dts dt_hash needing (t.2.1, t.2.2))) :=
      List.mem_of_mem_filter hy
    have hxe := mem_maint_entries (mem_entriesOf.mp hxl)
    have hye := mem_maint_entries (mem_entriesOf.mp hyl)
    simp only [Function.comp_apply] at hxy
    have hpair : x.host = y.host ∧ x.svc = y.svc := by
      by_cases h1 : x.svc = ""
      · by_cases h2 : y.svc = ""
        · simp only [h1, h2] at hxy
          simp at hxy
          exact ⟨hxy, by rw [h1, h2]⟩
        · simp only [h1] at hxy
          simp [h2] at hxy
      · by_cases h2 : y.svc = ""
        · simp only [h2] at hxy
          simp [h1] at hxy
        · simp [h1, h2] at hxy
          exact hxy
    rw [hpair.1, hpair.2] at hxe
    rw [hxe] at hye
    exact (Option.some.injEq _ _).mp hye
  · exact (nodup_entriesOf _).filter _

/-- C1 counterexample: on the `db1`/`db1sub` directory in fully-automated
mode (substring host search), `safe_create` returns `db1sub` twice — once
as "Similar hostname" and once as auto-detected child — so the target
list has two entries with the same `(host, service)` pair and no
first-seen-label deduplication happened. -/
theorem safe_create_duplicate_pair :
    safe_create 10 envC1 "host" cacheC1 =
      some (.ok [("Similar hostname", "db1sub", ""),
        ("Auto-detected child host db1sub", "db1sub", "")]) ∧
    ¬ (([("Similar hostname", "db1sub", ""),
        ("Auto-detected child host db1sub", "db1sub", "")] : List Target).map
        (fun t => (t.2.1, t.2.2))).Nodup := by
  constructor
  · decide
  · decide

/-- C1 (amended): `safe_create` itself performs no `(host, service)`
deduplication and may return several entries sharing a pair; the
deduplication happens downstream, on `main`'s operations list (via
`set`), so every batched `set_downtimes` call the engine issues carries a
duplicate-free target list. -/
theorem reconcile_batch_targets_nodup (my_host my_svc dt_hash : String)
    (default_downtime normal_check_interval : Int) (tgt_list : List Target)
    (curr_dts : List Downtime) (no_active_maint0 : Option Bool) (now : Int)
    (cmt : String) (s e : Int) (tgts : List (String × Option (List String)))
    (hmem : ApiCall.setDowntimes cmt s e tgts ∈
      (mainReconcile my_host my_svc dt_hash default_downtime normal_check_interval
        tgt_list curr_dts no_active_maint0 true now).calls) :
    tgts.Nodup := by
  have hcalls : (mainReconcile my_host my_svc dt_hash default_downtime
      normal_check_interval tgt_list curr_dts no_active_maint0 true now).calls =
      (applyChanges my_svc my_host dt_hash default_downtime now
        (tgt_list.filterMap (fun t => entry_for_pair curr_dts dt_hash
          (tgt_list.any (target_needs_readd curr_dts dt_hash normal_check_interval
            now)) (t.2.1, t.2.2)))).1 := rfl
  rw [hcalls] at hmem
  unfold applyChanges at hmem
  by_cases hLe : (tgt_list.filterMap (fun t => entry_for_pair curr_dts dt_hash
      (tgt_list.any (target_needs_readd curr_dts dt_hash normal_check_interval
        now)) (t.2.1, t.2.2))).isEmpty
  · rw [if_pos hLe] at hmem
    simp at hmem
  · rw [if_neg hLe] at hmem
    dsimp only at hmem
    by_cases hA : (buildAddTargets (entriesOf (tgt_list.filterMap
        (fun t => entry_for_pair curr_dts dt_hash
          (tgt_list.any (target_needs_readd curr_dts dt_hash normal_check_interval
            now)) (t.2.1, t.2.2))))).isEmpty
    · rw [if_pos hA] at hmem
      simp at hmem
    · rw [if_neg hA] at hmem
      unfold downtimes_add_all at hmem
      dsimp only at hmem
      rcases List.mem_append.mp hmem with hin | hin
      · rcases List.mem_singleton.mp hin with heq
        injection heq with h1 h2 h3 h4
        rw [h4]
        exact maint_batch_nodup curr_dts dt_hash _ tgt_list
      · by_cases hR : buildRemoveOld (entriesOf (tgt_list.filterMap
            (fun t => entry_for_pair curr_dts dt_hash
              (tgt_list.any (target_needs_readd curr_dts dt_hash
                normal_check_interval now)) (t.2.1, t.2.2)))) = true
        · rw [if_pos hR] at hin
          rcases List.mem_singleton.mp hin with heq
          exact absurd heq (by simp)
        · rw [if_neg hR] at hin
          simp at hin

/-- Witness for C1 (amended): a concrete run whose single batched add
carries the duplicate-free target list `[(h1, none)]`. -/
theorem reconcile_batch_targets_nodup_witness :
    ([(("h1" : String), (none : Option (List String)))]).Nodup :=
  reconcile_batch_targets_nodup "mh" "ms" "h123" 30 300 [("l", "h1", "")] []
    (some false) 1000 (mkComment "ms" "mh" "h123") 1000 2800 [("h1", none)]
    (by decide)

theorem entry_for_pair_host_svc (curr_dts : List Downtime) (dt_hash : String)
    (needing : Bool) (p : String × String) (e : HostSvcEntry)
    (h : entry_for_pair curr_dts dt_hash needing p = some e) :
    e.host = p.1 ∧ e.svc = p.2 := by
  unfold entry_for_pair at h
  rcases hd : downtimes_find curr_dts p.1 p.2 dt_hash "*" with _ | ⟨d, _ | ⟨d2, ds⟩⟩
  · rw [hd] at h
    dsimp only at h
    cases h
    exact ⟨rfl, rfl⟩
  · rw [hd] at h
    dsimp only at h
    cases needing with
    | false => exact absurd h (by simp)
    | true =>
      rw [if_pos rfl] at h
      cases h
      exact ⟨rfl, rfl⟩
  · rw [hd] at h
    dsimp only at h
    exact absurd h (by simp)

theorem entry_for_pair_op (curr_dts : List Downtime) (dt_hash : String)
    (needing : Bool) (p : String × String) (e : HostSvcEntry)
    (h : entry_for_pair curr_dts dt_hash needing p = some e) :
    (e.op == "add" || e.op == "readd") = true := by
  unfold entry_for_pair at h
  rcases hd : downtimes_find curr_dts p.1 p.2 dt_hash "*" with _ | ⟨d, _ | ⟨d2, ds⟩⟩
  · rw [hd] at h
    dsimp only at h
    cases h
    rfl
  · rw [hd] at h
    dsimp only at h
    cases needing with
    | false => exact absurd h (by simp)
    | true =>
      rw [if_pos rfl] at h
      cases h
      rfl
  · rw [hd] at h
    dsimp only at h
    exact absurd h (by simp)

theorem entry_for_pair_count_le (curr_dts : List Downtime) (dt_hash : String)
    (needing : Bool) (p : String × String) (e : HostSvcEntry)
    (h : entry_for_pair curr_dts dt_hash needing p = some e) :
    (downtimes_find curr_dts p.1 p.2 dt_hash "*").length ≤ 1 := by
  unfold entry_for_pair at h
  rcases hd : downtimes_find curr_dts p.1 p.2 dt_hash "*" with _ | ⟨d, _ | ⟨d2, ds⟩⟩
  · simp
  · simp
  · rw [hd] at h
    dsimp only at h
    exact absurd h (by simp)

theorem entry_exists_of_count_le (curr_dts : List Downtime) (dt_hash : String)
    (h sv : String)
    (hc : (downtimes_find curr_dts h sv dt_hash "*").length ≤ 1) :
    ∃ e, entry_for_pair curr_dts dt_hash true (h, sv) = some e ∧
      e.host = h ∧ e.svc = sv := by
  rcases hd : downtimes_find curr_dts h sv dt_hash "*" with _ | ⟨d, _ | ⟨d2, ds⟩⟩
  · refine ⟨⟨"add", h, sv, "Adding downtime"⟩, ?_, rfl, rfl⟩
    unfold entry_for_pair
    dsimp only
    rw [hd]
  · refine ⟨⟨"readd", h, sv, "(Removing/)Adding downtime for extension"⟩, ?_, rfl, rfl⟩
    unfold entry_for_pair
    dsimp only
    rw [hd]
    rfl
  · rw [hd] at hc
    simp at hc

theorem wrapSvc_inj {a b : String} (h : wrapSvc a = wrapSvc b) : a = b := by
  unfold wrapSvc at h
  by_cases h1 : a = ""
  · by_cases h2 : b = ""
    · rw [h1, h2]
    · rw [if_pos (by simp [h1]), if_neg (by simp [h2])] at h
      simp at h
  · by_cases h2 : b = ""
    · rw [if_neg (by simp [h1]), if_pos (by simp [h2])] at h
      simp at h
    · rw [if_neg (by simp [h1]), if_neg (by simp [h2])] at h
      simp only [Option.some.injEq, List.cons.injEq, and_true] at h
      exact h

theorem buildAddTargets_wrap (es : List HostSvcEntry) :
    ((buildAddTargets es).map (fun t => match t.2 with
      | none => (t.1, (none : Option (List String)))
      | some s => (t.1, some [s]))) =
    (es.filter (fun e => e.op == "add" || e.op == "readd")).map
      (fun e => (e.host, wrapSvc e.svc)) := by
  unfold buildAddTargets
  rw [List.map_map]
  apply List.map_congr_left
  intro e _
  simp only [Function.comp_apply]
  unfold wrapSvc
  by_cases h1 : e.svc = ""
  · rw [if_pos (by simp [h1]), if_pos (by simp [h1])]
  · rw [if_neg (by simp [h1]), if_neg (by simp [h1])]

/-- C2 counterexample: at a concrete input that needs an extension
(downtime ends 60 s from now, threshold 600 s), the engine issues both a
batched add and a hash-scoped removal, but the removal comes *after* the
batched re-add (the code adds first and then deletes the old set, scoped
to start times at least 5 s before the new batch), not before it. -/
theorem extension_readd_delete_after_add :
    (mainReconcile "mh" "ms" "deadbeef0123" 30 300 [("lbl", "h1", "")] [dtC2]
      (some false) true 1000).calls.any isDelCall = true ∧
    (mainReconcile "mh" "ms" "deadbeef0123" 30 300 [("lbl", "h1", "")] [dtC2]
      (some false) true 1000).calls.any isSetCall = true ∧
    removalPrecedesSet (mainReconcile "mh" "ms" "deadbeef0123" 30 300
      [("lbl", "h1", "")] [dtC2] (some false) true 1000).calls = false := by
  refine ⟨by decide, by decide, by decide⟩

/-- C2 (amended): when maintenance is required and some target has
exactly one hash-correlated downtime ending within
`2 x normal_check_interval` of now, the engine issues exactly one batched
`set_downtimes` with the shared window `[now, now + duration]` whose
target list is exactly the whole marked set — it contains `(h, sv)`
precisely when some configured target has that `(host, service)` pair
and the pair has at most one correlated downtime (zero marks an add, one
a re-add; more is the skip-anomaly) — followed, after a fixed delay and
therefore after rather than before the batched re-add, by one
keyword-scoped delete of the hash-correlated downtime set restricted to
downtimes starting at least 5 s before the new batch. -/
theorem extension_batch_atomic (my_host my_svc dt_hash : String)
    (default_downtime normal_check_interval : Int) (tgt_list : List Target)
    (curr_dts : List Downtime) (no_active_maint0 : Option Bool) (now : Int)
    (t : Target) (hmem : t ∈ tgt_list) (dt : Downtime)
    (hfind : downtimes_find curr_dts t.2.1 t.2.2 dt_hash "*" = [dt])
    (hexp : now > dt.end_time - normal_check_interval * 2) :
    ∃ tgts, (mainReconcile my_host my_svc dt_hash default_downtime
        normal_check_interval tgt_list curr_dts no_active_maint0 true now).calls =
      [ApiCall.setDowntimes (mkComment my_svc my_host dt_hash) now
        (now + 60 * default_downtime) tgts,
       ApiCall.delByKeyword ("MAINT#" ++ dt_hash) (some (now - 5))] ∧
      tgts ≠ [] ∧
      (∀ p ∈ tgts, ∃ ph psv, p = (ph, wrapSvc psv)) ∧
      (∀ ph psv, (ph, wrapSvc psv) ∈ tgts ↔
        ((∃ lbl, ((lbl, ph, psv) : Target) ∈ tgt_list) ∧
          (downtimes_find curr_dts ph psv dt_hash "*").length ≤ 1)) := by
  have hneed : tgt_list.any
      (target_needs_readd curr_dts dt_hash normal_check_interval now) = true := by
    rw [List.any_eq_true]
    refine ⟨t, hmem, ?_⟩
    unfold target_needs_readd
    rw [hfind]
    exact decide_eq_true hexp
  have hcalls : (mainReconcile my_host my_svc dt_hash default_downtime
      normal_check_interval tgt_list curr_dts no_active_maint0 true now).calls =
      (applyChanges my_svc my_host dt_hash default_downtime now
        (tgt_list.filterMap (fun t' => entry_for_pair curr_dts dt_hash
          (tgt_list.any (target_needs_readd curr_dts dt_hash normal_check_interval
            now)) (t'.2.1, t'.2.2)))).1 := rfl
  rw [hcalls, hneed]
  have he : (⟨"readd", t.2.1, t.2.2,
      "(Removing/)Adding downtime for extension"⟩ : HostSvcEntry) ∈
      tgt_list.filterMap
        (fun t' => entry_for_pair curr_dts dt_hash true (t'.2.1, t'.2.2)) := by
    rw [List.mem_filterMap]
    refine ⟨t, hmem, ?_⟩
    unfold entry_for_pair
    dsimp only
    rw [hfind]
    rfl
  have hLe : (tgt_list.filterMap
      (fun t' => entry_for_pair curr_dts dt_hash true (t'.2.1, t'.2.2))).isEmpty
      = false := by
    rw [List.isEmpty_eq_false]
    exact List.ne_nil_of_mem he
  have hef : (⟨"readd", t.2.1, t.2.2,
      "(Removing/)Adding downtime for extension"⟩ : HostSvcEntry) ∈
      (entriesOf (tgt_list.filterMap
        (fun t' => entry_for_pair curr_dts dt_hash true (t'.2.1, t'.2.2)))).filter
        (fun e => e.op == "add" || e.op == "readd") :=
    List.mem_filter.mpr ⟨mem_entriesOf.mpr he, rfl⟩
  have hAmem : ((⟨"readd", t.2.1, t.2.2,
      "(Removing/)Adding downtime for extension"⟩ : HostSvcEntry).host,
        if (⟨"readd", t.2.1, t.2.2,
          "(Removing/)Adding downtime for extension"⟩ : HostSvcEntry).svc == ""
        then none else some (⟨"readd", t.2.1, t.2.2,
          "(Removing/)Adding downtime for extension"⟩ : HostSvcEntry).svc) ∈
      buildAddTargets (entriesOf (tgt_list.filterMap
        (fun t' => entry_for_pair curr_dts dt_hash true (t'.2.1, t'.2.2)))) := by
    unfold buildAddTargets
    exact List.mem_map.mpr ⟨_, hef, rfl⟩
  have hA : (buildAddTargets (entriesOf (tgt_list.filterMap
      (fun t' => entry_for_pair curr_dts dt_hash true (t'.2.1, t'.2.2))))).isEmpty
      = false := by
    rw [List.isEmpty_eq_false]
    exact List.ne_nil_of_mem hAmem
  have hR : buildRemoveOld (entriesOf (tgt_list.filterMap
      (fun t' => entry_for_pair curr_dts dt_hash true (t'.2.1, t'.2.2)))) = true := by
    unfold buildRemoveOld
    rw [List.any_eq_true]
    exact ⟨_, hef, rfl⟩
  refine ⟨(buildAddTargets (entriesOf (tgt_list.filterMap
      (fun t' => entry_for_pair curr_dts dt_hash true (t'.2.1, t'.2.2))))).map
      (fun t' => match t'.2 with
        | none => (t'.1, (none : Option (List String)))
        | some s => (t'.1, some [s])), ?_, ?_, ?_, ?_⟩
  · unfold applyChanges
    rw [if_neg (by rw [hLe]; exact Bool.false_ne_true)]
    dsimp only
    rw [if_neg (by rw [hA]; exact Bool.false_ne_true)]
    unfold downtimes_add_all
    rw [hR]
    dsimp only
    rw [if_pos rfl]
    rfl
  · intro hcon
    rw [List.map_eq_nil_iff] at hcon
    rw [hcon] at hAmem
    simp at hAmem
  · intro p hp
    rw [buildAddTargets_wrap] at hp
    rcases List.mem_map.mp hp with ⟨e, _, heq⟩
    exact ⟨e.host, e.svc, heq.symm⟩
  · intro ph psv
    rw [buildAddTargets_wrap]
    constructor
    · intro hp
      rcases List.mem_map.mp hp with ⟨e, hef2, heq⟩
      have hh : e.host = ph := congrArg Prod.fst heq
      have hs : e.svc = psv := wrapSvc_inj (congrArg Prod.snd heq)
      have heL : e ∈ tgt_list.filterMap
          (fun t' => entry_for_pair curr_dts dt_hash true (t'.2.1, t'.2.2)) :=
        mem_entriesOf.mp (List.mem_of_mem_filter hef2)
      rcases List.mem_filterMap.mp heL with ⟨t', ht'mem, ht'⟩
      have hfields := entry_for_pair_host_svc _ _ _ _ _ ht'
      refine ⟨⟨t'.1, ?_⟩, ?_⟩
      · have hpe : ((t'.1, ph, psv) : Target) = t' := by
          have e1 : ph = t'.2.1 := by rw [← hh, hfields.1]
          have e2 : psv = t'.2.2 := by rw [← hs, hfields.2]
          rw [e1, e2]
          rfl
        rw [hpe]
        exact ht'mem
      · have hcanon := entry_for_pair_fields _ _ _ _ _ ht'
        rw [hh, hs] at hcanon
        exact entry_for_pair_count_le _ _ _ _ _ hcanon
    · rintro ⟨⟨lbl, hlblmem⟩, hc⟩
      rcases entry_exists_of_count_le curr_dts dt_hash ph psv hc with
        ⟨e, hent, hh, hs⟩
      have heL : e ∈ tgt_list.filterMap
          (fun t' => entry_for_pair curr_dts dt_hash true (t'.2.1, t'.2.2)) := by
        rw [List.mem_filterMap]
        exact ⟨(lbl, ph, psv), hlblmem, hent⟩
      have hef2 : e ∈ (entriesOf (tgt_list.filterMap
          (fun t' => entry_for_pair curr_dts dt_hash true (t'.2.1, t'.2.2)))).filter
          (fun e => e.op == "add" || e.op == "readd") :=
        List.mem_filter.mpr ⟨mem_entriesOf.mpr heL,
          entry_for_pair_op _ _ _ _ _ hent⟩
      refine List.mem_map.mpr ⟨e, hef2, ?_⟩
      rw [hh, hs]

/-- Witness for C2 (amended) at the concrete near-expiry input. -/
theorem extension_batch_atomic_witness :
    ∃ tgts, (mainReconcile "mh" "ms" "deadbeef0123" 30 300 [("lbl", "h1", "")] [dtC2]
        (some false) true 1000).calls =
      [ApiCall.setDowntimes (mkComment "ms" "mh" "deadbeef0123") 1000
        (1000 + 60 * 30) tgts,
       ApiCall.delByKeyword ("MAINT#" ++ "deadbeef0123") (some (1000 - 5))] ∧
      tgts ≠ [] ∧
      (∀ p ∈ tgts, ∃ ph psv, p = (ph, wrapSvc psv)) ∧
      (∀ ph psv, (ph, wrapSvc psv) ∈ tgts ↔
        ((∃ lbl, ((lbl, ph, psv) : Target) ∈ [(("lbl", "h1", "") : Target)]) ∧
          (downtimes_find [dtC2] ph psv "deadbeef0123" "*").length ≤ 1)) :=
  extension_batch_atomic "mh" "ms" "deadbeef0123" 30 300 [("lbl", "h1", "")] [dtC2]
    (some false) 1000 ("lbl", "h1", "") (by decide) dtC2 (by decide) (by decide)
